import Mathlib

/-!
Shallow embedding of `src/micropython/pico_w_clock.py` (led-matrix-clock).

The Python module drives a 16x48 NeoPixel matrix.  Its core is:
  * a 5x5 bitmap font `FONT` for the digits and the colon,
  * a `Matrix` class owning a linear NeoPixel buffer addressed through a
    serpentine (boustrophedon) index mapping,
  * glyph blitting (`draw_char`, `draw_text`) and time formatting.

Python's mutable `Matrix` object (with its `neopixel.NeoPixel` driver) is
embedded as an explicit state record: `np` is the driver's pixel array and
`writes` is the log of frames transmitted to the physical strip by
`np.write()` calls, so that "transmits to the device" is observable.
Coordinates are `Int` (Python integers may be negative); colors are the
3-tuples the Python code passes around.
-/

namespace Pico

/-- A pixel color: an (r, g, b) triple, as the Python code's tuples. -/
abbrev Color := Nat × Nat × Nat

/-- The off color `(0, 0, 0)`; NeoPixel buffers start out all zeros. -/
def offColor : Color := (0, 0, 0)

/-- State of the `Matrix` object together with its NeoPixel driver.
`np` embeds the driver's pixel array (`self.np[i]`), `writes` logs every
frame sent by `self.np.write()`. -/
structure Matrix where
  width : Nat
  height : Nat
  np : List Color
  writes : List (List Color)
  deriving Repr, DecidableEq

/-- `Matrix.__init__(self, pin, width, height)`: stores the dimensions and
allocates a NeoPixel array of `width * height` pixels (all off).  The pin
number only selects the GPIO and has no effect on the state. -/
def Matrix.init (_pin width height : Nat) : Matrix :=
  { width := width
    height := height
    np := List.replicate (width * height) offColor
    writes := [] }

/-- `self.np.write()`: transmit the current buffer to the LED strip. -/
def Matrix.npWrite (m : Matrix) : Matrix :=
  { m with writes := m.writes ++ [m.np] }

/-- `Matrix._pixel_index(self, x, y)`:
`y * width + x` when `y % 2 == 0`, else `y * width + (width - 1 - x)`. -/
def Matrix._pixel_index (m : Matrix) (x y : Int) : Int :=
  if y % 2 = 0 then
    y * m.width + x
  else
    y * m.width + (m.width - 1 - x)

/-- `Matrix.fill(self, color)`: the loop `for i in range(self.np.n):
self.np[i] = color` overwrites every pixel, then `self.np.write()`
transmits the buffer. -/
def Matrix.fill (m : Matrix) (color : Color) : Matrix :=
  Matrix.npWrite { m with np := m.np.map (fun _ => color) }

/-- `Matrix.set_pixel(self, x, y, color)`: writes the buffer at the
serpentine index iff `0 <= x < self.width and 0 <= y < self.height`. -/
def Matrix.set_pixel (m : Matrix) (x y : Int) (color : Color) : Matrix :=
  if 0 ≤ x ∧ x < m.width ∧ 0 ≤ y ∧ y < m.height then
    { m with np := m.np.set (m._pixel_index x y).toNat color }
  else
    m

/-- Read-back helper (not in the source): the color the buffer holds for a
logical coordinate, `none` when the coordinate is off the canvas. -/
def Matrix.get_pixel (m : Matrix) (x y : Int) : Option Color :=
  if 0 ≤ x ∧ x < m.width ∧ 0 ≤ y ∧ y < m.height then
    m.np[(m._pixel_index x y).toNat]?
  else
    none

/-- The `FONT` dict: 5-row bitmaps for `'0'`-`'9'` and `':'`; `.get` on any
other character returns `None`. -/
def FONT : Char → Option (List Nat)
  | '0' => some [0b11111, 0b10001, 0b10001, 0b10001, 0b11111]
  | '1' => some [0b00100, 0b01100, 0b00100, 0b00100, 0b01110]
  | '2' => some [0b11111, 0b00001, 0b11111, 0b10000, 0b11111]
  | '3' => some [0b11111, 0b00001, 0b01110, 0b00001, 0b11111]
  | '4' => some [0b10001, 0b10001, 0b11111, 0b00001, 0b00001]
  | '5' => some [0b11111, 0b10000, 0b11111, 0b00001, 0b11111]
  | '6' => some [0b11111, 0b10000, 0b11111, 0b10001, 0b11111]
  | '7' => some [0b11111, 0b00001, 0b00010, 0b00100, 0b00100]
  | '8' => some [0b11111, 0b10001, 0b11111, 0b10001, 0b11111]
  | '9' => some [0b11111, 0b10001, 0b11111, 0b00001, 0b11111]
  | ':' => some [0b00000, 0b00100, 0b00000, 0b00100, 0b00000]
  | _ => none

/-- Inner loop of `draw_char` for one bitmap row: `for col in range(5):
if bits & (1 << (4 - col)): matrix.set_pixel(x + col, y + row, color)`. -/
def drawRow (m : Matrix) (bits : Nat) (x y : Int) (row : Nat) (color : Color) : Matrix :=
  (List.range 5).foldl
    (fun acc col =>
      if bits &&& (1 <<< (4 - col)) != 0 then
        acc.set_pixel (x + col) (y + row) color
      else
        acc)
    m

/-- `draw_char(char, x, y, color)`: looks the character up in `FONT`;
returns unchanged on a miss (or an empty bitmap, Python's `if not bitmap`),
otherwise blits each row via `enumerate(bitmap)`. -/
def draw_char (m : Matrix) (char : Char) (x y : Int) (color : Color) : Matrix :=
  match FONT char with
  | none => m
  | some bitmap =>
    if bitmap.isEmpty then
      m
    else
      bitmap.enum.foldl (fun acc rb => drawRow acc rb.2 x y rb.1 color) m

/-- `draw_text(text, x, y, color)`: draws each character in order and
advances the cursor with `x += 6` after every character. -/
def draw_text (m : Matrix) (text : String) (x y : Int) (color : Color) : Matrix :=
  (text.data.foldl
    (fun (p : Matrix × Int) char => (draw_char p.1 char p.2 y color, p.2 + 6))
    (m, x)).1

/-- Python's `"{:02d}".format(n)` for a nonnegative `n`: pad with a leading
zero to two digits. -/
def fmt02 (n : Nat) : String :=
  if n < 10 then "0" ++ toString n else toString n

/-- The main loop's `time_str = "{:02d}:{:02d}".format(t[3], t[4])`. -/
def time_str (hour minute : Nat) : String :=
  fmt02 hour ++ ":" ++ fmt02 minute

example : time_str 7 5 = "07:05" := by decide
example : (Matrix.init 0 4 3)._pixel_index 0 1 = 7 := by decide
example :
    ((Matrix.init 0 2 2).set_pixel 1 1 (9, 9, 9)).np
      = [offColor, offColor, (9, 9, 9), offColor] := by decide

/-- C1: for in-range coordinates, `_pixel_index` is `y*width + x` on even
rows and `y*width + (width - 1 - x)` on odd rows; on the 4-wide canvas,
`index(0,0)=0`, `index(3,0)=3`, `index(0,1)=7`, `index(3,1)=4`,
`index(0,2)=8`. -/
theorem pixel_index_serpentine (m : Matrix) (x y : Int)
    (hx0 : 0 ≤ x) (hx : x < m.width) (hy0 : 0 ≤ y) (hy : y < m.height) :
    ((Even y → m._pixel_index x y = y * m.width + x) ∧
      (Odd y → m._pixel_index x y = y * m.width + (m.width - 1 - x))) ∧
    ((Matrix.init 0 4 3)._pixel_index 0 0 = 0 ∧
      (Matrix.init 0 4 3)._pixel_index 3 0 = 3 ∧
      (Matrix.init 0 4 3)._pixel_index 0 1 = 7 ∧
      (Matrix.init 0 4 3)._pixel_index 3 1 = 4 ∧
      (Matrix.init 0 4 3)._pixel_index 0 2 = 8) := by
  refine ⟨⟨?_, ?_⟩, by decide, by decide, by decide, by decide, by decide⟩
  · intro he
    unfold Matrix._pixel_index
    rw [if_pos (Int.even_iff.mp he)]
  · intro ho
    have h1 : y % 2 = 1 := Int.odd_iff.mp ho
    unfold Matrix._pixel_index
    rw [if_neg (by omega)]

theorem pixel_index_serpentine_witness :
    (Matrix.init 0 4 3)._pixel_index 0 0 = 0 ∧
    (Matrix.init 0 4 3)._pixel_index 3 0 = 3 ∧
    (Matrix.init 0 4 3)._pixel_index 0 1 = 7 ∧
    (Matrix.init 0 4 3)._pixel_index 3 1 = 4 ∧
    (Matrix.init 0 4 3)._pixel_index 0 2 = 8 :=
  (pixel_index_serpentine (Matrix.init 0 4 3) 0 0 (by decide) (by decide)
    (by decide) (by decide)).2

/-- C4: `set_pixel` at any out-of-range coordinate returns the state
completely unchanged and signals no error. -/
theorem set_pixel_out_of_range (m : Matrix) (x y : Int) (color : Color)
    (h : x < 0 ∨ (m.width : Int) ≤ x ∨ y < 0 ∨ (m.height : Int) ≤ y) :
    m.set_pixel x y color = m := by
  unfold Matrix.set_pixel
  have hc : ¬(0 ≤ x ∧ x < m.width ∧ 0 ≤ y ∧ y < m.height) := by
    rintro ⟨h1, h2, h3, h4⟩
    rcases h with h | h | h | h <;> omega
  rw [if_neg hc]

theorem set_pixel_out_of_range_witness :
    (Matrix.init 0 4 3).set_pixel (-1) 0 (1, 2, 3) = Matrix.init 0 4 3 ∧
    (Matrix.init 0 4 3).set_pixel 4 0 (1, 2, 3) = Matrix.init 0 4 3 :=
  ⟨set_pixel_out_of_range _ _ _ _ (Or.inl (by decide)),
    set_pixel_out_of_range _ _ _ _ (Or.inr (Or.inl (by decide)))⟩

/-- C8: `time_str` is the zero-padded two-digit hour, a colon, and the
zero-padded two-digit minute; `time_str 7 5 = "07:05"` and
`time_str 23 59 = "23:59"`. -/
theorem time_str_format (hour minute : Nat) (hh : hour < 24) (hm : minute < 60) :
    time_str hour minute =
      String.mk [Nat.digitChar (hour / 10), Nat.digitChar (hour % 10), ':',
        Nat.digitChar (minute / 10), Nat.digitChar (minute % 10)] ∧
    time_str 7 5 = "07:05" ∧ time_str 23 59 = "23:59" := by
  refine ⟨?_, by decide, by decide⟩
  have key : ∀ n, n < 100 →
      fmt02 n = String.mk [Nat.digitChar (n / 10), Nat.digitChar (n % 10)] := by
    decide
  have h1 := key hour (by omega)
  have h2 := key minute (by omega)
  unfold time_str
  rw [h1, h2]
  rfl

theorem time_str_format_witness :
    time_str 7 5 =
      String.mk [Nat.digitChar (7 / 10), Nat.digitChar (7 % 10), ':',
        Nat.digitChar (5 / 10), Nat.digitChar (5 % 10)] ∧
    time_str 7 5 = "07:05" ∧ time_str 23 59 = "23:59" :=
  time_str_format 7 5 (by decide) (by decide)

/-- C2 counterexample: contrary to the claim, `fill` does transmit the
buffer to the device: on a freshly constructed 2x2 matrix (whose write log
is empty), `fill (5,5,5)` leaves one transmitted frame in the log. -/
theorem fill_transmits_counterexample :
    (Matrix.init 0 2 2).writes = [] ∧
    ((Matrix.init 0 2 2).fill (5, 5, 5)).writes = [List.replicate 4 (5, 5, 5)] := by
  decide

/-- C2 amended: `fill color` overwrites every buffer element with `color`
(preserving the buffer length) and then transmits the resulting buffer to
the physical device (exactly one driver write). -/
theorem fill_overwrites_and_transmits (m : Matrix) (color : Color) (i : Nat)
    (hi : i < m.np.length) :
    (m.fill color).np.length = m.np.length ∧
    (m.fill color).np[i]? = some color ∧
    (m.fill color).writes = m.writes ++ [(m.fill color).np] := by
  unfold Matrix.fill Matrix.npWrite
  refine ⟨by simp, ?_, by simp⟩
  simp only [List.getElem?_map, List.getElem?_eq_getElem hi, Option.map_some']

theorem fill_overwrites_and_transmits_witness :
    ((Matrix.init 0 2 2).fill (5, 5, 5)).np.length = (Matrix.init 0 2 2).np.length ∧
    ((Matrix.init 0 2 2).fill (5, 5, 5)).np[0]? = some (5, 5, 5) ∧
    ((Matrix.init 0 2 2).fill (5, 5, 5)).writes =
      (Matrix.init 0 2 2).writes ++ [((Matrix.init 0 2 2).fill (5, 5, 5)).np] :=
  fill_overwrites_and_transmits (Matrix.init 0 2 2) (5, 5, 5) 0 (by decide)

/-- C3 counterexample: contrary to the claim, constructing with a zero
dimension does not fail: `Matrix.init` has no zero-dimension check, and a
width-0 construction yields an ordinary `Matrix` value with an empty
buffer. -/
theorem init_zero_width_counterexample :
    (Matrix.init 0 0 16).width = 0 ∧
    (Matrix.init 0 0 16).height = 16 ∧
    (Matrix.init 0 0 16).np = [] := by
  decide

/-- C3 amended: construction never fails for any dimensions; it records the
dimensions and allocates a buffer of exactly `width * height` elements
(zero elements when a dimension is zero), all off. -/
theorem init_allocates (pin width height : Nat) (i : Nat)
    (hi : i < width * height) :
    (Matrix.init pin width height).width = width ∧
    (Matrix.init pin width height).height = height ∧
    (Matrix.init pin width height).np.length = width * height ∧
    (Matrix.init pin width height).np[i]? = some offColor := by
  unfold Matrix.init
  refine ⟨rfl, rfl, by simp, ?_⟩
  simp [List.getElem?_replicate, hi]

/-- Whatever the parity branch, the index of an in-range column lands in
the row's slice `[y*width, y*width + width)` of the buffer. -/
lemma pixel_index_row_bounds (m : Matrix) (x y : Int)
    (hx0 : 0 ≤ x) (hx : x < m.width) :
    y * m.width ≤ m._pixel_index x y ∧
      m._pixel_index x y < y * m.width + m.width := by
  unfold Matrix._pixel_index
  split <;> constructor <;> linarith

lemma pixel_index_bounds (m : Matrix) (x y : Int)
    (hx0 : 0 ≤ x) (hx : x < m.width) (hy0 : 0 ≤ y) (hy : y < m.height) :
    0 ≤ m._pixel_index x y ∧
      m._pixel_index x y < (m.width : Int) * m.height := by
  obtain ⟨hl, hu⟩ := pixel_index_row_bounds m x y hx0 hx
  have hW : (0 : Int) ≤ m.width := Int.natCast_nonneg _
  constructor
  · have h0 : (0 : Int) ≤ y * m.width := mul_nonneg hy0 hW
    linarith
  · have h2 : (y + 1) * (m.width : Int) ≤ (m.height : Int) * m.width :=
      mul_le_mul_of_nonneg_right (by omega) hW
    have h3 : (y + 1) * (m.width : Int) = y * m.width + m.width := by ring
    have h4 : (m.height : Int) * m.width = (m.width : Int) * m.height :=
      mul_comm _ _
    linarith

lemma pixel_index_inj (m : Matrix) (x1 y1 x2 y2 : Int)
    (hx1 : 0 ≤ x1) (hx1w : x1 < m.width) (hy1 : 0 ≤ y1)
    (hx2 : 0 ≤ x2) (hx2w : x2 < m.width) (hy2 : 0 ≤ y2)
    (heq : m._pixel_index x1 y1 = m._pixel_index x2 y2) :
    x1 = x2 ∧ y1 = y2 := by
  obtain ⟨l1, u1⟩ := pixel_index_row_bounds m x1 y1 hx1 hx1w
  obtain ⟨l2, u2⟩ := pixel_index_row_bounds m x2 y2 hx2 hx2w
  have hW : (0 : Int) < m.width := lt_of_le_of_lt hx1 hx1w
  have hy : y1 = y2 := by
    by_contra hne
    rcases lt_or_gt_of_ne hne with hlt | hlt
    · have hle : (y1 + 1) * (m.width : Int) ≤ y2 * m.width :=
        mul_le_mul_of_nonneg_right (by omega) (le_of_lt hW)
      have he : (y1 + 1) * (m.width : Int) = y1 * m.width + m.width := by ring
      linarith
    · have hle : (y2 + 1) * (m.width : Int) ≤ y1 * m.width :=
        mul_le_mul_of_nonneg_right (by omega) (le_of_lt hW)
      have he : (y2 + 1) * (m.width : Int) = y2 * m.width + m.width := by ring
      linarith
  subst hy
  refine ⟨?_, rfl⟩
  by_cases hp : y1 % 2 = 0 <;>
    simp only [Matrix._pixel_index, hp, if_true, if_false] at heq <;>
    have := add_left_cancel heq <;>
    omega

lemma pixel_index_surj (m : Matrix) (i : Int)
    (hi0 : 0 ≤ i) (hi : i < (m.width : Int) * m.height) :
    ∃ x y : Int, 0 ≤ x ∧ x < m.width ∧ 0 ≤ y ∧ y < m.height ∧
      m._pixel_index x y = i := by
  have hWnat : 0 < m.width := by
    by_contra h
    have h0 : m.width = 0 := by omega
    rw [h0] at hi
    simp at hi
    omega
  have hW : (0 : Int) < m.width := by exact_mod_cast hWnat
  have hy0 : 0 ≤ i / (m.width : Int) := Int.ediv_nonneg hi0 (le_of_lt hW)
  have hyH : i / (m.width : Int) < m.height := by
    rw [Int.ediv_lt_iff_lt_mul hW]
    have := mul_comm (m.width : Int) (m.height : Int)
    linarith
  have hr0 : 0 ≤ i % (m.width : Int) := Int.emod_nonneg i (ne_of_gt hW)
  have hrW : i % (m.width : Int) < m.width := Int.emod_lt_of_pos i hW
  have hdm : (m.width : Int) * (i / m.width) + i % m.width = i :=
    Int.ediv_add_emod i m.width
  have hcm : (i / (m.width : Int)) * m.width = (m.width : Int) * (i / m.width) :=
    mul_comm _ _
  by_cases hp : (i / (m.width : Int)) % 2 = 0
  · refine ⟨i % m.width, i / m.width, hr0, hrW, hy0, hyH, ?_⟩
    unfold Matrix._pixel_index
    rw [if_pos hp]
    linarith
  · refine ⟨(m.width : Int) - 1 - i % m.width, i / m.width,
      by linarith, by linarith, hy0, hyH, ?_⟩
    unfold Matrix._pixel_index
    rw [if_neg hp]
    have hsimp : (m.width : Int) - 1 - ((m.width : Int) - 1 - i % m.width)
        = i % m.width := by ring
    rw [hsimp]
    linarith

/-- C9: on the valid coordinate domain the serpentine mapping is a
bijection onto `[0, width*height)`: every in-range coordinate maps
in-bounds, distinct in-range coordinates map to distinct indices, and
every index in range is hit by an in-range coordinate. -/
theorem pixel_index_bijection (m : Matrix) :
    (∀ x y : Int, 0 ≤ x → x < m.width → 0 ≤ y → y < m.height →
      0 ≤ m._pixel_index x y ∧
        m._pixel_index x y < (m.width : Int) * m.height) ∧
    (∀ x1 y1 x2 y2 : Int,
      0 ≤ x1 → x1 < m.width → 0 ≤ y1 → y1 < m.height →
      0 ≤ x2 → x2 < m.width → 0 ≤ y2 → y2 < m.height →
      m._pixel_index x1 y1 = m._pixel_index x2 y2 → x1 = x2 ∧ y1 = y2) ∧
    (∀ i : Int, 0 ≤ i → i < (m.width : Int) * m.height →
      ∃ x y : Int, 0 ≤ x ∧ x < m.width ∧ 0 ≤ y ∧ y < m.height ∧
        m._pixel_index x y = i) :=
  ⟨fun x y hx0 hx hy0 hy => pixel_index_bounds m x y hx0 hx hy0 hy,
    fun x1 y1 x2 y2 hx1 hx1w hy1 _ hx2 hx2w hy2 _ heq =>
      pixel_index_inj m x1 y1 x2 y2 hx1 hx1w hy1 hx2 hx2w hy2 heq,
    fun i hi0 hi => pixel_index_surj m i hi0 hi⟩

theorem pixel_index_bijection_witness :
    0 ≤ (Matrix.init 0 4 3)._pixel_index 3 1 ∧
    (Matrix.init 0 4 3)._pixel_index 3 1 <
      ((Matrix.init 0 4 3).width : Int) * (Matrix.init 0 4 3).height :=
  (pixel_index_bijection (Matrix.init 0 4 3)).1 3 1 (by decide) (by decide)
    (by decide) (by decide)

/-- C10: an in-range `set_pixel` changes only the buffer slot at the
serpentine index; every other slot, the buffer length, the dimensions and
the write log are untouched. -/
theorem set_pixel_frame (m : Matrix) (x y : Int) (color : Color)
    (hlen : m.np.length = m.width * m.height)
    (hx0 : 0 ≤ x) (hx : x < m.width) (hy0 : 0 ≤ y) (hy : y < m.height) :
    (m.set_pixel x y color).width = m.width ∧
    (m.set_pixel x y color).height = m.height ∧
    (m.set_pixel x y color).writes = m.writes ∧
    (m.set_pixel x y color).np.length = m.np.length ∧
    (m.set_pixel x y color).np[(m._pixel_index x y).toNat]? = some color ∧
    (∀ j : Nat, j ≠ (m._pixel_index x y).toNat →
      (m.set_pixel x y color).np[j]? = m.np[j]?) := by
  have hidx := pixel_index_bounds m x y hx0 hx hy0 hy
  have hcast : m._pixel_index x y < ((m.width * m.height : Nat) : Int) := by
    push_cast
    exact hidx.2
  have hlt : (m._pixel_index x y).toNat < m.np.length := by
    rw [hlen]
    omega
  unfold Matrix.set_pixel
  rw [if_pos ⟨hx0, hx, hy0, hy⟩]
  refine ⟨rfl, rfl, rfl, by simp, ?_, ?_⟩
  · exact List.getElem?_set_eq_of_lt color hlt
  · intro j hj
    exact List.getElem?_set_ne (fun h => hj h.symm)

theorem set_pixel_frame_witness :
    ((Matrix.init 0 4 3).set_pixel 3 1 (7, 7, 7)).np[
      ((Matrix.init 0 4 3)._pixel_index 3 1).toNat]? = some (7, 7, 7) :=
  (set_pixel_frame (Matrix.init 0 4 3) 3 1 (7, 7, 7) (by decide) (by decide)
    (by decide) (by decide) (by decide)).2.2.2.2.1

theorem init_allocates_witness :
    (Matrix.init 0 4 3).width = 4 ∧
    (Matrix.init 0 4 3).height = 3 ∧
    (Matrix.init 0 4 3).np.length = 4 * 3 ∧
    (Matrix.init 0 4 3).np[5]? = some offColor :=
  init_allocates 0 4 3 5 (by decide)

/-- Spec-side description of one glyph row: the columns `col < 5` whose
bit `4 - col` of the row mask is set (most-significant of the low five
bits is the leftmost column). -/
def glyphRowCols (bits : Nat) : List Nat :=
  (List.range 5).filter (fun col => bits.testBit (4 - col))

/-- Spec-side description of `draw_char`: the coordinates
`(x + col, y + row)` of every set bit of the glyph, in drawing order;
empty when the font misses. -/
def glyphTargets (char : Char) (x y : Int) : List (Int × Int) :=
  match FONT char with
  | none => []
  | some bitmap =>
    bitmap.enum.flatMap
      (fun rb => (glyphRowCols rb.2).map
        (fun col => (x + (col : Int), y + (rb.1 : Int))))

/-- Apply `set_pixel` with one color at each coordinate of a list. -/
def setPixelList (m : Matrix) (targets : List (Int × Int)) (color : Color) : Matrix :=
  targets.foldl (fun acc t => acc.set_pixel t.1 t.2 color) m

/-- "Bit `i` is set" agrees with the code's `bits & (1 << i) != 0` test. -/
lemma testBit_eq_mask (bits i : Nat) :
    bits.testBit i = (bits &&& (1 <<< i) != 0) := by
  rw [Nat.shiftLeft_eq, one_mul, Nat.and_two_pow]
  cases h : bits.testBit i
  · simp
  · have h2 : (2 : Nat) ^ i ≠ 0 := pow_ne_zero i (by norm_num)
    simp [h2]

/-- A fold that skips elements failing a guard is the fold over the
filtered list. -/
lemma foldl_guard_filter {α β : Type} (p : α → Bool) (f : β → α → β) :
    ∀ (l : List α) (b : β),
      l.foldl (fun acc a => if p a then f acc a else acc) b
        = (l.filter p).foldl f b := by
  intro l
  induction l with
  | nil => intro b; rfl
  | cons a l ih =>
    intro b
    by_cases h : p a
    · simp [List.filter_cons, h, ih]
    · simp [List.filter_cons, h, ih]

/-- Pushing the coordinate construction through `setPixelList`. -/
lemma setPixelList_map_cols (cols : List Nat) (x y : Int) (row : Nat)
    (color : Color) :
    ∀ m : Matrix,
      setPixelList m (cols.map (fun col => (x + (col : Int), y + (row : Int)))) color
        = cols.foldl
            (fun acc col => acc.set_pixel (x + (col : Int)) (y + (row : Int)) color)
            m := by
  induction cols with
  | nil => intro m; rfl
  | cons c cs ih =>
    intro m
    simp only [List.map_cons, setPixelList, List.foldl_cons]
    exact ih (m.set_pixel (x + (c : Int)) (y + (row : Int)) color)

lemma drawRow_eq (m : Matrix) (bits : Nat) (x y : Int) (row : Nat) (color : Color) :
    drawRow m bits x y row color
      = setPixelList m ((glyphRowCols bits).map
          (fun col => (x + (col : Int), y + (row : Int)))) color := by
  rw [setPixelList_map_cols]
  unfold drawRow glyphRowCols
  rw [List.filter_congr (fun a _ => testBit_eq_mask bits (4 - a))]
  rw [foldl_guard_filter]

lemma foldl_drawRow_eq (x y : Int) (color : Color) :
    ∀ (pairs : List (Nat × Nat)) (m : Matrix),
      pairs.foldl (fun acc rb => drawRow acc rb.2 x y rb.1 color) m
        = setPixelList m
            (pairs.flatMap (fun rb => (glyphRowCols rb.2).map
              (fun col => (x + (col : Int), y + (rb.1 : Int))))) color := by
  intro pairs
  induction pairs with
  | nil => intro m; rfl
  | cons rb rest ih =>
    intro m
    simp only [List.foldl_cons, List.flatMap_cons]
    rw [ih, drawRow_eq]
    unfold setPixelList
    rw [List.foldl_append]

/-- C5: `draw_char` performs exactly the `set_pixel (x+col, y+row)` calls
for the `(row, col)` with `row < 5`, `col < 5` and bit `4 - col` of
row-mask `row` set, and changes nothing when the character is not in the
font. -/
theorem draw_char_targets (m : Matrix) (char : Char) (x y : Int) (color : Color) :
    draw_char m char x y color = setPixelList m (glyphTargets char x y) color := by
  unfold draw_char glyphTargets
  cases hF : FONT char with
  | none => rfl
  | some bitmap =>
    cases bitmap with
    | nil => rfl
    | cons b rest =>
      simp only [List.isEmpty_cons, Bool.false_eq_true, if_false]
      exact foldl_drawRow_eq x y color (b :: rest).enum m

/-- `draw_text` on the empty string draws nothing. -/
lemma draw_text_nil (m : Matrix) (x y : Int) (color : Color) :
    draw_text m (String.mk []) x y color = m := rfl

/-- One step of `draw_text`: draw the head character, advance `x` by 6. -/
lemma draw_text_cons (m : Matrix) (c : Char) (cs : List Char) (x y : Int)
    (color : Color) :
    draw_text m (String.mk (c :: cs)) x y color
      = draw_text (draw_char m c x y color) (String.mk cs) (x + 6) y color := rfl

/-- An unrecognized character draws nothing (but its caller still advances
the cursor). -/
lemma draw_char_unknown (m : Matrix) (x y : Int) (color : Color) :
    draw_char m 'x' x y color = m := rfl

/-- C6: `draw_text` advances the cursor by exactly 6 columns after every
character, recognized or not; on a 20x5 canvas, `"1x1"` draws the same
frame as `"1"` at x=0 followed by `"1"` at x=12. -/
theorem draw_text_advance :
    (∀ (m : Matrix) (c : Char) (cs : List Char) (x y : Int) (color : Color),
      draw_text m (String.mk (c :: cs)) x y color
        = draw_text (draw_char m c x y color) (String.mk cs) (x + 6) y color) ∧
    (∀ color : Color,
      draw_text (Matrix.init 0 20 5) "1x1" 0 0 color
        = draw_text (draw_text (Matrix.init 0 20 5) "1" 0 0 color) "1" 12 0 color) := by
  constructor
  · exact fun m c cs x y color => draw_text_cons m c cs x y color
  · intro color
    rw [show ("1x1" : String) = String.mk ['1', 'x', '1'] from rfl,
      show ("1" : String) = String.mk ['1'] from rfl]
    simp only [draw_text_cons, draw_text_nil, draw_char_unknown]
    norm_num

/-- The exact pixels the code's `'1'` glyph lights when drawn at (0,0):
row masks `[0b00100, 0b01100, 0b00100, 0b00100, 0b01110]`. -/
def onePixels : List (Int × Int) :=
  [(2, 0), (1, 1), (2, 1), (2, 2), (2, 3), (1, 4), (2, 4), (3, 4)]

/-- Unfolding `draw_char` of the glyph of one into its five row blits. -/
lemma draw_char_one_rows (m : Matrix) (x y : Int) (color : Color) :
    draw_char m '1' x y color
      = drawRow (drawRow (drawRow (drawRow (drawRow m 4 x y 0 color)
          12 x y 1 color) 4 x y 2 color) 4 x y 3 color) 14 x y 4 color := rfl

set_option maxHeartbeats 1000000 in
/-- Drawing the glyph of one at (0,0) on the 5x5 canvas, slot by slot: in
serpentine order the lit buffer indices are 2, 7, 8, 12, 17, 21, 22, 23
(row 1 is wired right-to-left, so logical (1,1) and (2,1) land at 8, 7). -/
lemma draw_one_result (color : Color) :
    draw_char (Matrix.init 0 5 5) '1' 0 0 color
      = { width := 5, height := 5,
          np := [offColor, offColor, color, offColor, offColor,
                 offColor, offColor, color, color, offColor,
                 offColor, offColor, color, offColor, offColor,
                 offColor, offColor, color, offColor, offColor,
                 offColor, color, color, color, offColor],
          writes := [] } := by
  rw [draw_char_one_rows]
  rw [show drawRow (Matrix.init 0 5 5) 4 0 0 0 color
      = Matrix.mk 5 5
        [offColor, offColor, color, offColor, offColor,
         offColor, offColor, offColor, offColor, offColor,
         offColor, offColor, offColor, offColor, offColor,
         offColor, offColor, offColor, offColor, offColor,
         offColor, offColor, offColor, offColor, offColor]
        [] from rfl]
  rw [show drawRow ((Matrix.mk 5 5
        [offColor, offColor, color, offColor, offColor,
         offColor, offColor, offColor, offColor, offColor,
         offColor, offColor, offColor, offColor, offColor,
         offColor, offColor, offColor, offColor, offColor,
         offColor, offColor, offColor, offColor, offColor]
        [])) 12 0 0 1 color
      = Matrix.mk 5 5
        [offColor, offColor, color, offColor, offColor,
         offColor, offColor, color, color, offColor,
         offColor, offColor, offColor, offColor, offColor,
         offColor, offColor, offColor, offColor, offColor,
         offColor, offColor, offColor, offColor, offColor]
        [] from rfl]
  rw [show drawRow ((Matrix.mk 5 5
        [offColor, offColor, color, offColor, offColor,
         offColor, offColor, color, color, offColor,
         offColor, offColor, offColor, offColor, offColor,
         offColor, offColor, offColor, offColor, offColor,
         offColor, offColor, offColor, offColor, offColor]
        [])) 4 0 0 2 color
      = Matrix.mk 5 5
        [offColor, offColor, color, offColor, offColor,
         offColor, offColor, color, color, offColor,
         offColor, offColor, color, offColor, offColor,
         offColor, offColor, offColor, offColor, offColor,
         offColor, offColor, offColor, offColor, offColor]
        [] from rfl]
  rw [show drawRow ((Matrix.mk 5 5
        [offColor, offColor, color, offColor, offColor,
         offColor, offColor, color, color, offColor,
         offColor, offColor, color, offColor, offColor,
         offColor, offColor, offColor, offColor, offColor,
         offColor, offColor, offColor, offColor, offColor]
        [])) 4 0 0 3 color
      = Matrix.mk 5 5
        [offColor, offColor, color, offColor, offColor,
         offColor, offColor, color, color, offColor,
         offColor, offColor, color, offColor, offColor,
         offColor, offColor, color, offColor, offColor,
         offColor, offColor, offColor, offColor, offColor]
        [] from rfl]
  rw [show drawRow ((Matrix.mk 5 5
        [offColor, offColor, color, offColor, offColor,
         offColor, offColor, color, color, offColor,
         offColor, offColor, color, offColor, offColor,
         offColor, offColor, color, offColor, offColor,
         offColor, offColor, offColor, offColor, offColor]
        [])) 14 0 0 4 color
      = Matrix.mk 5 5
        [offColor, offColor, color, offColor, offColor,
         offColor, offColor, color, color, offColor,
         offColor, offColor, color, offColor, offColor,
         offColor, offColor, color, offColor, offColor,
         offColor, color, color, color, offColor]
        [] from rfl]

/-- C7 counterexample: drawing `'1'` at (0,0) on a 5x5 canvas leaves
(3,0) and (1,0) off and lights (1,1) — the claim's pixel set (columns 2,3
of row 0 for mask `0b01100`; column 3 of rows 1-4 for `0b00100`) is wrong
on both counts, because `FONT['1']` is
`[0b00100, 0b01100, 0b00100, 0b00100, 0b01110]`. -/
theorem draw_one_counterexample :
    ((draw_char (Matrix.init 0 5 5) '1' 0 0 (1, 1, 1)).get_pixel 3 0
        = some (0, 0, 0)) ∧
    ((draw_char (Matrix.init 0 5 5) '1' 0 0 (1, 1, 1)).get_pixel 1 0
        = some (0, 0, 0)) ∧
    ((draw_char (Matrix.init 0 5 5) '1' 0 0 (1, 1, 1)).get_pixel 1 1
        = some (1, 1, 1)) := by
  rw [draw_one_result]
  refine ⟨rfl, rfl, rfl⟩

/-- C7 amended: drawing `'1'` at (0,0) on a 5x5 canvas with color `C`
lights exactly `onePixels` (the set bits of
`[0b00100, 0b01100, 0b00100, 0b00100, 0b01110]`); every other canvas
pixel stays off. -/
theorem draw_one_exact (color : Color) (x y : Int)
    (hx0 : 0 ≤ x) (hx : x < 5) (hy0 : 0 ≤ y) (hy : y < 5) :
    (draw_char (Matrix.init 0 5 5) '1' 0 0 color).get_pixel x y
      = if (x, y) ∈ onePixels then some color else some offColor := by
  rw [draw_one_result]
  interval_cases x <;> interval_cases y <;> rfl

theorem draw_one_exact_witness :
    ((draw_char (Matrix.init 0 5 5) '1' 0 0 (9, 9, 9)).get_pixel 2 0
        = if ((2 : Int), (0 : Int)) ∈ onePixels then some (9, 9, 9)
          else some offColor) ∧
    ((draw_char (Matrix.init 0 5 5) '1' 0 0 (9, 9, 9)).get_pixel 0 0
        = if ((0 : Int), (0 : Int)) ∈ onePixels then some (9, 9, 9)
          else some offColor) :=
  ⟨draw_one_exact (9, 9, 9) 2 0 (by decide) (by decide) (by decide) (by decide),
    draw_one_exact (9, 9, 9) 0 0 (by decide) (by decide) (by decide) (by decide)⟩

end Pico
